import Mathlib

/-!
Shallow embedding of the spreadsheet financial-data extraction engine
(`extractFinancialData` and its helpers: `cleanNumber`,
`parseBusinessComposition`, `identifyMetric`, `METRIC_RULES`, strategy
detection, the horizontal and vertical extractors and the finalizer).

Modelling conventions:
* JavaScript numbers are modelled as rationals plus explicit `nan` /
  `inf` markers (the engine only ever produces NaN or Infinity through
  `parseFloat`, never through overflow of the small arithmetic it does,
  so `ℚ` is an adequate carrier for the finite values).
* Spreadsheet cells are a tagged union (number, string, null,
  undefined, boolean, other object), matching the dynamic values that
  `sheet_to_json` can produce; `String(cell)` is modelled by
  `cellToString`.
* Rows are lists of cells; out-of-range indexing yields `undefined`,
  as in JavaScript.  `sheet_to_json(…, {header:1, defval:''})` always
  produces arrays, so the `Array.isArray` guards in the source are
  vacuous and are not reproduced.
* The per-call `yearDataMap` object is an insertion-ordered
  association list.  Its keys are always 4-digit strings (produced by
  the `\d{4}` matches), which are distinct, so the final
  `sort((a,b) => parseInt(a.year)-parseInt(b.year))` determines the
  output order uniquely; it is modelled by `List.insertionSort` on the
  numeric value of the year key.
* File decoding (`xlsx.read`) is I/O and is not modelled: the input of
  the embedded `extractFinancialData` is the list of already-decoded
  workbooks (each a list of sheets, each a list of rows).
-/

namespace Dupont

/-! ### Characters and strings -/

/-- The JavaScript whitespace class `\s` (which also covers the
`﻿` and `\xA0` listed separately in the source's strip regex). -/
def isJsWhitespace (c : Char) : Bool :=
  let n := c.toNat
  n = 9 || n = 10 || n = 11 || n = 12 || n = 13 || n = 32 || n = 160 ||
  n = 0x1680 || (0x2000 ≤ n && n ≤ 0x200a) || n = 0x2028 || n = 0x2029 ||
  n = 0x202f || n = 0x205f || n = 0x3000 || n = 0xfeff

/-- `String.prototype.trim()` on a list of characters. -/
def trimWs (l : List Char) : List Char :=
  ((l.dropWhile isJsWhitespace).reverse.dropWhile isJsWhitespace).reverse

/-- `trim()` on strings. -/
def strTrim (s : String) : String := String.mk (trimWs s.toList)

/-- Boolean test that `p` is a prefix of `l`. -/
def pfx : List Char → List Char → Bool
  | [], _ => true
  | _ :: _, [] => false
  | a :: p, b :: l => a = b && pfx p l

/-- Boolean substring containment: JavaScript `l.includes(p)`. -/
def hasSubstr : List Char → List Char → Bool
  | [], pat => pat.isEmpty
  | a :: t, pat => pfx pat (a :: t) || hasSubstr t pat

/-- Numeric value of a list of decimal digit characters. -/
def digitsVal (l : List Char) : ℕ :=
  l.foldl (fun a c => a * 10 + (c.toNat - 48)) 0

/-! ### JavaScript numbers -/

/-- A JavaScript number: a finite value (as a rational), NaN, or a
signed infinity. -/
inductive JsNum where
  | num (q : ℚ)
  | nan
  | inf (neg : Bool)
deriving DecidableEq

/-- Division by 100, as used in the percentage branch
(`mkRat q.num (q.den * 100)` is `q / 100`; stated via `mkRat` so that
the definition evaluates by kernel reduction). -/
def JsNum.div100 : JsNum → JsNum
  | .num q => .num (mkRat q.num (q.den * 100))
  | .nan => .nan
  | .inf b => .inf b

/-- `Math.abs`. -/
def JsNum.abs : JsNum → JsNum
  | .num q => .num |q|
  | .nan => .nan
  | .inf _ => .inf false

/-- `isNaN`. -/
def JsNum.isNaN : JsNum → Bool
  | .nan => true
  | _ => false

/-- Whether the value is strictly negative (NaN is not negative). -/
def JsNum.isNegative : JsNum → Bool
  | .num q => decide (q < 0)
  | .nan => false
  | .inf b => b

/-! ### `parseFloat` -/

/-- Optional leading sign; returns (isNegative, rest). -/
def parseSign : List Char → Bool × List Char
  | '-' :: t => (true, t)
  | '+' :: t => (false, t)
  | l => (false, l)

/-- Optional exponent part at the end of the significand; an invalid
exponent part is simply not consumed (longest-valid-prefix rule). -/
def parseExp : List Char → ℤ
  | c :: t =>
    if c = 'e' ∨ c = 'E' then
      let sp := parseSign t
      let ds := sp.2.takeWhile Char.isDigit
      if ds = [] then 0
      else if sp.1 then -(digitsVal ds : ℤ) else (digitsVal ds : ℤ)
    else 0
  | [] => 0

/-- JavaScript `parseFloat`: skip whitespace, then parse the longest
prefix that is a valid signed decimal literal (or `Infinity`); NaN if
there is none.  Values are exact rationals (the model idealises IEEE
rounding and overflow, which the verified properties do not depend
on). -/
def parseFloatL (l0 : List Char) : JsNum :=
  let l1 := l0.dropWhile isJsWhitespace
  let sp := parseSign l1
  let neg := sp.1
  let l := sp.2
  if pfx "Infinity".toList l then .inf neg
  else
    let ip := l.takeWhile Char.isDigit
    let l2 := l.drop ip.length
    let fr : List Char × List Char :=
      match l2 with
      | '.' :: t => (t.takeWhile Char.isDigit, t.drop (t.takeWhile Char.isDigit).length)
      | _ => ([], l2)
    let fp := fr.1
    let l3 := fr.2
    if ip = [] ∧ fp = [] then .nan
    else
      let mantNum : ℤ := (digitsVal ip * 10 ^ fp.length + digitsVal fp : ℕ)
      let sNum : ℤ := if neg then -mantNum else mantNum
      let e : ℤ := parseExp l3
      -- the value is sNum / 10 ^ fp.length * 10 ^ e, written with `mkRat`
      -- over integer arithmetic so that it evaluates by kernel reduction
      if 0 ≤ e then .num (mkRat (sNum * ((10 ^ e.toNat : ℕ) : ℤ)) (10 ^ fp.length))
      else .num (mkRat sNum (10 ^ (fp.length + e.natAbs)))

/-! ### `cleanNumber` -/

/-- Characters removed by the regex `[¥$£€,\s﻿\xA0]`. -/
def isStripChar (c : Char) : Bool :=
  c = '¥' || c = '$' || c = '£' || c = '€' || c = ',' || isJsWhitespace c

/-- The accounting-parenthesis step: `"(x)"` becomes `"-x"`. -/
def parenAdjust (v : List Char) : List Char :=
  match v with
  | '(' :: t => if t.getLast? = some ')' then '-' :: t.dropLast else '(' :: t
  | _ => v

/-- The cleaned text `cleanNumber` works on: strip currency symbols,
commas and whitespace, trim, then apply the parenthesis rule. -/
def cleanedText (s : String) : List Char :=
  parenAdjust (trimWs (s.toList.filter fun c => !isStripChar c))

/-- A spreadsheet cell as delivered by `sheet_to_json`. -/
inductive CellValue where
  | num (q : ℚ)
  | str (s : String)
  | null
  | undef
  | bool (b : Bool)
  | obj
deriving DecidableEq

/-- `cleanNumber` (source lines 57-77): numbers pass through; strings
are cleaned and parsed (parenthesis = negative, `%` = divide by 100,
lone dash / em-dash / empty = 0, parse failure = 0); every other cell
kind is 0. -/
def cleanNumber : CellValue → JsNum
  | .num q => .num q
  | .str s =>
    let v := cleanedText s
    if v.getLast? = some '%' then (parseFloatL v).div100
    else if v = ['-'] ∨ v = ['—'] ∨ v = [] then .num 0
    else
      match parseFloatL v with
      | .nan => .num 0
      | x => x
  | _ => .num 0

/-! ### Metric rules and the metric identifier -/

/-- The canonical metric keys, in the declaration order of the source's
`METRIC_RULES` object (`Object.entries` iterates string keys in
insertion order, so this order is the lookup order). -/
inductive Metric where
  | revenue
  | netProfitParent
  | totalAssets
  | equityParent
  | operatingCashFlow
  | capex
  | costOfRevenue
  | salesExpenses
  | managementExpenses
  | financialExpenses
  | researchExpenses
  | taxExpenses
deriving DecidableEq

/-- A rule entry: positive keywords and negative keywords. -/
structure MetricRule where
  positive : List String
  negative : List String
deriving DecidableEq

/-- The negative keywords of the revenue rule (named so that theorems
can refer to it). -/
def revenueNegatives : List String :=
  ["成本", "Cost", "Expense", "费用", "增长率", "Growth", "Cash", "现金", "税", "Tax", "率", "Ratio"]

/-- `METRIC_RULES` (source lines 6-55), in declaration order. -/
def METRIC_RULES : List (Metric × MetricRule) :=
  [ (.revenue,
     { positive := ["营业总收入", "营业收入", "Total Revenue", "Operating Revenue", "Revenue", "Main Business Income", "营收", "主营业务收入"],
       negative := revenueNegatives }),
    (.netProfitParent,
     { positive := ["归属于母公司所有者的净利润", "归属于母公司股东的净利润", "归母净利润", "Net Profit Attributable to Owners", "Net Income Attributable", "Net Profit Parent", "归属于上市公司股东的净利润"],
       negative := ["扣非", "Non-recurring", "税前", "Before Tax", "增长率", "Growth", "Rate", "率"] }),
    (.totalAssets,
     { positive := ["资产总计", "资产总额", "Total Assets", "总资产"],
       negative := ["平均", "Average", "净资产", "Net Assets", "流动", "Current", "非流动", "Non-current", "周转", "Turnover", "收益", "Return", "增长", "Growth", "Depreciation", "折旧", "率", "Ratio"] }),
    (.equityParent,
     { positive := ["归属于母公司所有者权益", "归属于母公司股东权益", "归母权益", "归属于母公司股东的权益", "Total Equity Attributable to Owners", "Equity Attributable to Parent", "归属于上市公司股东的所有者权益", "股东权益合计", "所有者权益合计", "Total Equity"],
       negative := ["少数", "Minority", "平均", "Average", "增长", "Growth", "率", "Ratio", "负债", "Liabilities"] }),
    (.operatingCashFlow,
     { positive := ["经营活动产生的现金流量净额", "经营活动现金流量净额", "经营活动净现金流", "Net Cash Flow from Operating Activities", "Net Cash from Operating", "Operating Cash Flow", "OCF", "经营现金流", "经营性现金流"],
       negative := ["投资", "Investing", "筹资", "Financing", "增长", "Growth", "率", "Ratio"] }),
    (.capex,
     { positive := ["购建固定资产", "购建固定资产、无形资产和其他长期资产支付的现金", "Capital Expenditure", "Capex", "Capital Spending", "Purchase of Property", "资本开支", "资本性支出"],
       negative := ["Ratio", "率"] }),
    (.costOfRevenue,
     { positive := ["营业成本", "营业总成本", "Cost of Revenue", "Operating Cost", "Cost of Sales", "主营业务成本"],
       negative := ["率", "Ratio", "Growth", "增长"] }),
    (.salesExpenses,
     { positive := ["销售费用", "Selling Expenses", "Distribution Costs", "Marketing Expenses"],
       negative := ["率", "Ratio"] }),
    (.managementExpenses,
     { positive := ["管理费用", "Management Expenses", "Administrative Expenses", "General and Administrative"],
       negative := ["率", "Ratio"] }),
    (.financialExpenses,
     { positive := ["财务费用", "Financial Expenses", "Finance Costs", "Interest Expense"],
       negative := ["率", "Ratio"] }),
    (.researchExpenses,
     { positive := ["研发费用", "Research and Development", "R&D"],
       negative := ["率", "Ratio"] }),
    (.taxExpenses,
     { positive := ["所得税费用", "所得税", "Income Tax Expenses", "Income Tax"],
       negative := ["递延", "Deferred", "Payable", "应交", "率", "Ratio"] }) ]

/-- Result of `identifyMetric`: a canonical metric or the special
business-composition marker (the source returns the key string or
`null`; `null` is `Option.none` here). -/
inductive MetricKey where
  | metric (m : Metric)
  | businessComposition
deriving DecidableEq

/-- Whether a rule matches a (trimmed) label: no negative keyword may
occur, and some positive keyword must occur. -/
def ruleMatches (cl : List Char) (r : MetricRule) : Bool :=
  !(r.negative.any fun n => hasSubstr cl n.toList) &&
  (r.positive.any fun p => hasSubstr cl p.toList)

/-- `identifyMetric` (source lines 98-119): empty string is `none`;
the business-composition phrases have priority; otherwise the first
rule in `METRIC_RULES` order that matches wins. -/
def identifyMetric (s : String) : Option MetricKey :=
  if s = "" then none
  else
    let cl := trimWs s.toList
    if hasSubstr cl "主营业务构成".toList || hasSubstr cl "Business Composition".toList then
      some .businessComposition
    else
      (METRIC_RULES.find? fun e => ruleMatches cl e.2).map fun e => MetricKey.metric e.1

/-! ### Business-composition parser -/

/-- Separator characters of `split(/;|；/)`. -/
def isSemiChar (c : Char) : Bool := c = ';' || c = '；'

/-- Separator characters of `split(/:|：/)`. -/
def isColonChar (c : Char) : Bool := c = ':' || c = '：'

/-- JavaScript `String.prototype.split` on single-character separators:
`split` of the empty string is `[""]`, and consecutive separators
produce empty fragments. -/
def splitOnPred (p : Char → Bool) : List Char → List (List Char)
  | [] => [[]]
  | c :: t =>
    if p c then [] :: splitOnPred p t
    else
      match splitOnPred p t with
      | [] => [[c]]
      | h :: r => (c :: h) :: r

/-- One retained line of a business-composition cell. -/
structure BCItem where
  name : String
  value : JsNum
deriving DecidableEq

/-- `parseBusinessComposition` (source lines 80-95): split on `;`/`；`,
split each fragment on `:`/`：`, keep (trimmed-name, cleaned-value)
pairs whose name is non-empty and whose value is not NaN.  The
enclosing `try`/`catch` never fires (all operations are total) and is
not modelled. -/
def parseBusinessComposition (s : String) : List BCItem :=
  if s = "" then []
  else
    (splitOnPred isSemiChar s.toList).filterMap fun frag =>
      match splitOnPred isColonChar frag with
      | p0 :: p1 :: _ =>
        let nm := trimWs p0
        let v := cleanNumber (.str (String.mk p1))
        if nm ≠ [] ∧ v.isNaN = false then some ⟨String.mk nm, v⟩ else none
      | _ => none

/-! ### `String(cell)` -/

/-- The ten decimal digit characters. -/
def digitCharList : List Char := ['0', '1', '2', '3', '4', '5', '6', '7', '8', '9']

/-- The digit character for a value below ten. -/
def digitChar (n : ℕ) : Char := digitCharList.getD n '0'

/-- Decimal digits of a natural number (fuel-based; `natStr` supplies
enough fuel). -/
def natChars : ℕ → ℕ → List Char
  | 0, _ => []
  | f + 1, n => if n < 10 then [digitChar n] else natChars f (n / 10) ++ [digitChar (n % 10)]

/-- Decimal representation of a natural number. -/
def natStr (n : ℕ) : List Char := natChars (n + 1) n

/-- JavaScript number-to-string conversion for the rationals of the
model: sign, integer part, and (for non-integers whose denominator
divides a power of ten - every IEEE double is such a value) the exact
fractional digits with no trailing zeros, as JavaScript prints.  The
exotic exponential forms for magnitudes ≥ 1e21 or < 1e-6 are not
reproduced; for rationals outside the decimal-terminating range (which
correspond to no IEEE double) the integer part alone is used.  Every
produced character is a digit, `-` or `.`, which is all the verified
properties rely on. -/
def numToString (q : ℚ) : String :=
  let sgn : List Char := if q < 0 then ['-'] else []
  let n := q.num.natAbs
  match (List.range 65).find? fun k => q.den ∣ 10 ^ k with
  | some k =>
    if k = 0 then String.mk (sgn ++ natStr n)
    else
      let scaled := n * 10 ^ k / q.den
      let ip := scaled / 10 ^ k
      let fplist := natStr (scaled % 10 ^ k)
      let fp := List.replicate (k - fplist.length) '0' ++ fplist
      String.mk (sgn ++ natStr ip ++ '.' :: fp)
  | none => String.mk (sgn ++ natStr n)

/-- JavaScript `String(cell)`. -/
def cellToString : CellValue → String
  | .str s => s
  | .num q => numToString q
  | .null => "null"
  | .undef => "undefined"
  | .bool b => if b then "true" else "false"
  | .obj => "[object Object]"

/-- JavaScript truthiness of a cell value (`0`, `""`, `null`,
`undefined` and `false` are falsy). -/
def jsTruthy : CellValue → Bool
  | .num q => !(q = 0 : Bool)
  | .str s => !(s = "" : Bool)
  | .null => false
  | .undef => false
  | .bool b => b
  | .obj => true

/-! ### Year records and the per-call map -/

/-- A (partial) per-year record: the TypeScript
`Partial<FinancialYearData>` as populated by the extractor.  `year`
and `businessComposition` are always set on creation; each metric is
optional. -/
structure YearData where
  year : String
  revenue : Option JsNum
  netProfitParent : Option JsNum
  totalAssets : Option JsNum
  equityParent : Option JsNum
  operatingCashFlow : Option JsNum
  capex : Option JsNum
  costOfRevenue : Option JsNum
  salesExpenses : Option JsNum
  managementExpenses : Option JsNum
  financialExpenses : Option JsNum
  researchExpenses : Option JsNum
  taxExpenses : Option JsNum
  businessComposition : List BCItem
deriving DecidableEq

/-- `{ year, businessComposition: [] }` - the record created on first
reference to a year. -/
def emptyRec (y : String) : YearData :=
  { year := y, revenue := none, netProfitParent := none, totalAssets := none,
    equityParent := none, operatingCashFlow := none, capex := none,
    costOfRevenue := none, salesExpenses := none, managementExpenses := none,
    financialExpenses := none, researchExpenses := none, taxExpenses := none,
    businessComposition := [] }

/-- `yearDataMap[year][key] = v`. -/
def setMetric (d : YearData) (mk : Metric) (v : JsNum) : YearData :=
  match mk with
  | .revenue => { d with revenue := some v }
  | .netProfitParent => { d with netProfitParent := some v }
  | .totalAssets => { d with totalAssets := some v }
  | .equityParent => { d with equityParent := some v }
  | .operatingCashFlow => { d with operatingCashFlow := some v }
  | .capex => { d with capex := some v }
  | .costOfRevenue => { d with costOfRevenue := some v }
  | .salesExpenses => { d with salesExpenses := some v }
  | .managementExpenses => { d with managementExpenses := some v }
  | .financialExpenses => { d with financialExpenses := some v }
  | .researchExpenses => { d with researchExpenses := some v }
  | .taxExpenses => { d with taxExpenses := some v }

/-- The special-cased write: capital expenditure is stored as
`Math.abs(val)`, every other metric as `val` (source lines 202-208 and
247-253). -/
def setCapexAware (d : YearData) (mk : Metric) (v : JsNum) : YearData :=
  if mk = .capex then setMetric d mk v.abs else setMetric d mk v

/-- The per-call `yearDataMap`, as an insertion-ordered association
list (fresh - `[]` - at the start of every extraction call). -/
abbrev YMap := List (String × YearData)

/-- Lookup by year key. -/
def ymFind (m : YMap) (y : String) : Option YearData :=
  match m with
  | [] => none
  | e :: t => if e.1 = y then some e.2 else ymFind t y

/-- `if (!yearDataMap[year]) yearDataMap[year] = { year, businessComposition: [] }`. -/
def ymEnsure (m : YMap) (y : String) : YMap :=
  if (ymFind m y).isSome then m else m ++ [(y, emptyRec y)]

/-- In-place update of the record stored under `y` (no-op if absent). -/
def ymSet (m : YMap) (y : String) (f : YearData → YearData) : YMap :=
  m.map fun e => if e.1 = y then (e.1, f e.2) else e

/-! ### Orientation detection -/

abbrev Row := List CellValue
abbrev Sheet := List Row
abbrev Workbook := List Sheet

/-- The two extraction strategies. -/
inductive Strategy where
  | horizontal
  | vertical
deriving DecidableEq

/-- The test `/^(20\d{2}|19\d{2})/.test(String(cell).trim())`. -/
def isYearPrefixed (c : CellValue) : Bool :=
  match trimWs (cellToString c).toList with
  | a :: b :: c2 :: d :: _ =>
    ((a = '2' && b = '0') || (a = '1' && b = '9')) && c2.isDigit && d.isDigit
  | _ => false

/-- One iteration of the strategy-detection loop (source lines
141-168): a row with at least two year-prefixed cells is HORIZONTAL;
otherwise a row with at least three cells whose trimmed text
identifies as any metric key (the business-composition marker
included - the source merely tests truthiness) is VERTICAL. -/
def detectRow (row : Row) : Option Strategy :=
  if 2 ≤ (row.filter isYearPrefixed).length then some .horizontal
  else if 3 ≤ (row.filter fun c => (identifyMetric (strTrim (cellToString c))).isSome).length then
    some .vertical
  else none

/-- Scan loop over the first 30 rows. -/
def detectGo : List Row → ℕ → Option (Strategy × ℕ)
  | [], _ => none
  | row :: t, i =>
    match detectRow row with
    | some s => some (s, i)
    | none => detectGo t (i + 1)

/-- Strategy detection: first row (top to bottom, among the first 30)
satisfying either condition wins, the horizontal check evaluated
first. -/
def detectStrategy (rows : List Row) : Option (Strategy × ℕ) :=
  detectGo (rows.take 30) 0

/-! ### The horizontal extractor -/

/-- First run of four consecutive digits: `cellStr.match(/(\d{4})/)`. -/
def firstFourDigits : List Char → Option (List Char)
  | [] => none
  | x :: t =>
    match x :: t with
    | a :: b :: c :: d :: _ =>
      if a.isDigit && b.isDigit && c.isDigit && d.isDigit then some [a, b, c, d]
      else firstFourDigits t
    | _ => none

/-- Header parse of the HORIZONTAL branch (source lines 179-186):
column index ↦ year string, for cells containing four consecutive
digits and the literal substring `"20"` or `"19"`. -/
def yearColMapOf (header : Row) : List (ℕ × String) :=
  header.enum.filterMap fun p =>
    let s := trimWs (cellToString p.2).toList
    match firstFourDigits s with
    | some ds =>
      if hasSubstr s "20".toList || hasSubstr s "19".toList then some (p.1, String.mk ds)
      else none
    | none => none

/-- `String(row[0] || row[1] || '')`: the label cell of a horizontal
data row, falling back to column 1 when column 0 is falsy. -/
def labelCell (row : Row) : CellValue :=
  if jsTruthy (row.getD 0 .undef) then row.getD 0 .undef
  else if jsTruthy (row.getD 1 .undef) then row.getD 1 .undef
  else .str ""

/-- One data row of the HORIZONTAL branch (source lines 189-211): if
the label identifies a metric (not the composition marker), write the
cleaned cell of every mapped year column under that metric. -/
def processHRow (ycm : List (ℕ × String)) (m : YMap) (row : Row) : YMap :=
  match identifyMetric (strTrim (cellToString (labelCell row))) with
  | some (.metric mk) =>
    ycm.foldl
      (fun acc p =>
        let val := cleanNumber (row.getD p.1 .undef)
        ymSet (ymEnsure acc p.2) p.2 fun d => setCapexAware d mk val)
      m
  | _ => m

/-! ### The vertical extractor -/

/-- `yearStr.match(/^(\d{4})/)`: a leading run of four digits. -/
def leadingFourDigits : List Char → Option (List Char)
  | a :: b :: c :: d :: _ =>
    if a.isDigit && b.isDigit && c.isDigit && d.isDigit then some [a, b, c, d] else none
  | _ => none

/-- Header parse of the VERTICAL branch (source lines 218-225): column
index ↦ identified metric key (or composition marker). -/
def metricColMapOf (header : Row) : List (ℕ × MetricKey) :=
  header.enum.filterMap fun p =>
    (identifyMetric (strTrim (cellToString p.2))).map fun k => (p.1, k)

/-- The body of the vertical data-row loop, for one mapped column
`p`: the composition column replaces the year's composition list with
the parse of the raw cell; a metric column stores the cleaned value
(capex as absolute value). -/
def vStep (row : Row) (y : String) (acc : YMap) (p : ℕ × MetricKey) : YMap :=
  match p.2 with
  | .businessComposition =>
    ymSet acc y fun d =>
      { d with businessComposition := parseBusinessComposition (cellToString (row.getD p.1 .undef)) }
  | .metric mk =>
    ymSet acc y fun d => setCapexAware d mk (cleanNumber (row.getD p.1 .undef))

/-- One data row of the VERTICAL branch (source lines 228-257): rows
whose column 0 does not start with four digits are skipped; otherwise
the year's record is created if absent and every mapped column is
written via `vStep`. -/
def processVRow (mcm : List (ℕ × MetricKey)) (m : YMap) (row : Row) : YMap :=
  match leadingFourDigits (trimWs (cellToString (row.getD 0 .undef)).toList) with
  | none => m
  | some ds =>
    mcm.foldl (vStep row (String.mk ds)) (ymEnsure m (String.mk ds))

/-! ### Sheet, workbook and batch processing -/

/-- Process one sheet (source lines 129-259): detect the strategy and
run the matching extractor over the rows strictly below the header. -/
def processSheet (m : YMap) (rows : Sheet) : YMap :=
  if rows = [] then m
  else
    match detectStrategy rows with
    | none => m
    | some (.horizontal, h) =>
      (rows.drop (h + 1)).foldl (processHRow (yearColMapOf (rows.getD h []))) m
    | some (.vertical, h) =>
      (rows.drop (h + 1)).foldl (processVRow (metricColMapOf (rows.getD h []))) m

/-- All sheets of all files, in source order, merged into one map that
starts empty at each call. -/
def buildMap (files : List Workbook) : YMap :=
  files.foldl (fun m wb => wb.foldl processSheet m) []

/-! ### Finalization -/

/-- The survival filter (source lines 268-271): truthy year and at
least one of revenue / netProfitParent / totalAssets present. -/
def survives (d : YearData) : Bool :=
  if d.year = "" then false
  else d.revenue.isSome || d.netProfitParent.isSome || d.totalAssets.isSome

/-- Default-filling (source lines 274-279): the four core metrics
become 0 when absent; all other fields are untouched. -/
def fillDefaults (d : YearData) : YearData :=
  { d with
    revenue := some (d.revenue.getD (.num 0)),
    netProfitParent := some (d.netProfitParent.getD (.num 0)),
    totalAssets := some (d.totalAssets.getD (.num 0)),
    equityParent := some (d.equityParent.getD (.num 0)) }

/-- `parseInt(d.year)` for the 4-digit year keys the map contains: the
numeric value of the leading digit run. -/
def yearKey (d : YearData) : ℕ := digitsVal (d.year.toList.takeWhile Char.isDigit)

/-- The sort order `(a, b) => parseInt(a.year) - parseInt(b.year)`. -/
def yearLe (a b : YearData) : Prop := yearKey a ≤ yearKey b

instance : DecidableRel yearLe := fun x y => Nat.decLe (yearKey x) (yearKey y)

instance : IsTotal YearData yearLe := ⟨fun x y => Nat.le_total (yearKey x) (yearKey y)⟩

instance : IsTrans YearData yearLe := ⟨fun _ _ _ => Nat.le_trans⟩

/-- Finalization (source lines 268-285): keep surviving records, fill
defaults, and sort ascending by numeric year.  The map's keys are
distinct 4-digit strings, so the sorted order is unique and
`insertionSort` computes exactly what the JavaScript comparator sort
returns. -/
def finalize (m : YMap) : List YearData :=
  let res := ((m.map Prod.snd).filter survives).map fillDefaults
  if res = [] then [] else List.insertionSort yearLe res

/-- `extractFinancialData` (source lines 121-286) on already-decoded
workbooks: build the per-year map across all files and sheets, then
finalize. -/
def extractFinancialData (files : List Workbook) : List YearData :=
  finalize (buildMap files)

/-- Two invocations on the same input, as one definition (each call of
`extractFinancialData` rebuilds its map from `[]`, as the source's
call-local `yearDataMap` does). -/
def runTwice (files : List Workbook) : List YearData × List YearData :=
  (extractFinancialData files, extractFinancialData files)

/-- The column index of the last map entry carrying the
business-composition marker (the last write wins in the vertical
data-row loop). -/
def lastBC : List (ℕ × MetricKey) → Option ℕ
  | [] => none
  | p :: t =>
    match lastBC t with
    | some ci => some ci
    | none => if p.2 = MetricKey.businessComposition then some p.1 else none

/-- The stored composition list of the record under key `y`. -/
def bcOf (m : YMap) (y : String) : Option (List BCItem) :=
  (ymFind m y).map YearData.businessComposition

/-- The capital-expenditure invariant on one record: a stored capex
value is never negative. -/
def capexOk (d : YearData) : Prop :=
  ∀ v, d.capex = some v → v.isNegative = false

/-- The capital-expenditure invariant on the whole map. -/
def mapOk (m : YMap) : Prop := ∀ e ∈ m, capexOk e.2

/-! ### Substring lemmas -/

theorem pfx_trans : ∀ {a b c : List Char}, pfx a b = true → pfx b c = true → pfx a c = true
  | [], _, _, _, _ => rfl
  | _ :: _, [], _, h1, _ => by simp [pfx] at h1
  | _ :: _, _ :: _, [], _, h2 => by simp [pfx] at h2
  | x :: a, y :: b, z :: c, h1, h2 => by
    simp only [pfx, Bool.and_eq_true, decide_eq_true_eq] at h1 h2 ⊢
    exact ⟨h1.1.trans h2.1, pfx_trans h1.2 h2.2⟩

theorem pfx_drop (n : ℕ) : ∀ {p l : List Char}, pfx p l = true →
    pfx (p.drop n) (l.drop n) = true := by
  induction n with
  | zero => intro p l h; simpa using h
  | succ n ih =>
    intro p l h
    match p, l with
    | [], _ => simp [pfx, List.drop_nil]
    | _ :: _, [] => simp [pfx] at h
    | x :: p, y :: l =>
      simp only [pfx, Bool.and_eq_true] at h
      simpa using ih h.2

theorem hasSubstr_iff_ex {l p : List Char} :
    hasSubstr l p = true ↔ ∃ n, pfx p (l.drop n) = true := by
  induction l with
  | nil =>
    cases p <;> simp [hasSubstr, pfx]
  | cons a t ih =>
    simp only [hasSubstr, Bool.or_eq_true, ih]
    constructor
    · rintro (h | ⟨n, h⟩)
      · exact ⟨0, h⟩
      · exact ⟨n + 1, h⟩
    · rintro ⟨n, h⟩
      cases n with
      | zero => exact Or.inl h
      | succ n => exact Or.inr ⟨n, h⟩

theorem hasSubstr_trans {l q p : List Char} (h1 : hasSubstr l q = true)
    (h2 : hasSubstr q p = true) : hasSubstr l p = true := by
  obtain ⟨i, hi⟩ := hasSubstr_iff_ex.mp h1
  obtain ⟨j, hj⟩ := hasSubstr_iff_ex.mp h2
  refine hasSubstr_iff_ex.mpr ⟨i + j, ?_⟩
  have := pfx_trans hj (pfx_drop j hi)
  rwa [List.drop_drop] at this

/-- The keyword `"率"` occurs in the negative list of every rule, so a
label containing it matches no rule at all. -/
theorem find?_rules_none {cl : List Char} (hl : hasSubstr cl "率".toList = true) :
    (METRIC_RULES.find? fun e => ruleMatches cl e.2) = none := by
  rw [List.find?_eq_none]
  intro e he hc
  have hmem : ("率" : String) ∈ e.2.negative := by fin_cases he <;> decide
  have hany : (e.2.negative.any fun m => hasSubstr cl m.toList) = true :=
    List.any_eq_true.mpr ⟨"率", hmem, hl⟩
  unfold ruleMatches at hc
  rw [hany] at hc
  simp at hc

/-! ### Claim C4 -/

/-- C4, counterexample to the claim as stated: the label
`"主营业务构成营业收入"` contains `"营业收入"` and none of the revenue
rule's negative keywords, yet `identifyMetric` does not resolve it to
the revenue metric - the business-composition phrase check has
priority and returns the composition marker. -/
theorem identifyMetric_revenue_counterexample :
    hasSubstr (trimWs (String.toList "主营业务构成营业收入")) "营业收入".toList = true ∧
    (revenueNegatives.any fun n =>
      hasSubstr (trimWs (String.toList "主营业务构成营业收入")) n.toList) = false ∧
    identifyMetric "主营业务构成营业收入" ≠ some (.metric .revenue) ∧
    identifyMetric "主营业务构成营业收入" = some .businessComposition := by decide

/-- C4, amended: (1) every label that contains both `"营业收入"` and
`"增长率"` and neither business-composition phrase identifies as no
metric at all (the negative keyword `"率"`, contained in `"增长率"`,
occurs in the negative list of every rule, so no rule can fire); and
(2) every label that contains `"营业收入"`, none of the revenue rule's
negative keywords, *and neither business-composition phrase* (the
addition the counterexample forces) resolves to the revenue metric.
Containment is over the trimmed label, which is what `identifyMetric`
inspects. -/
theorem identifyMetric_revenue_amended :
    (∀ s : String,
      hasSubstr (trimWs s.toList) "营业收入".toList = true →
      hasSubstr (trimWs s.toList) "增长率".toList = true →
      hasSubstr (trimWs s.toList) "主营业务构成".toList = false →
      hasSubstr (trimWs s.toList) "Business Composition".toList = false →
      identifyMetric s = none) ∧
    (∀ s : String,
      hasSubstr (trimWs s.toList) "营业收入".toList = true →
      (revenueNegatives.any fun n => hasSubstr (trimWs s.toList) n.toList) = false →
      hasSubstr (trimWs s.toList) "主营业务构成".toList = false →
      hasSubstr (trimWs s.toList) "Business Composition".toList = false →
      identifyMetric s = some (.metric .revenue)) := by
  constructor
  · intro s h1 h2 h3 h4
    have hne : ¬s = "" := by
      intro h
      subst h
      exact absurd h1 (by decide)
    have hl : hasSubstr (trimWs s.toList) "率".toList = true :=
      hasSubstr_trans h2 (by decide)
    simp only [identifyMetric]
    rw [if_neg hne, h3, h4]
    simp only [Bool.or_self, Bool.false_eq_true, if_false]
    rw [Option.map_eq_none']
    exact find?_rules_none hl
  · intro s h1 hneg h3 h4
    have hne : ¬s = "" := by
      intro h
      subst h
      exact absurd h1 (by decide)
    simp only [identifyMetric]
    rw [if_neg hne, h3, h4]
    simp only [Bool.or_self, Bool.false_eq_true, if_false]
    rw [METRIC_RULES, List.find?_cons_of_pos]
    · rfl
    · simp only [ruleMatches, Bool.and_eq_true, Bool.not_eq_true']
      refine ⟨hneg, ?_⟩
      rw [List.any_eq_true]
      exact ⟨"营业收入", by decide, h1⟩

/-- C4, witness: the amended theorem applied at the concrete labels
`"营业收入增长率"` (neither metric) and `"营业收入"` (revenue). -/
theorem identifyMetric_revenue_amended_witness :
    identifyMetric "营业收入增长率" = none ∧
    identifyMetric "营业收入" = some (.metric .revenue) :=
  ⟨identifyMetric_revenue_amended.1 "营业收入增长率" (by decide) (by decide) (by decide)
      (by decide),
   identifyMetric_revenue_amended.2 "营业收入" (by decide) (by decide) (by decide) (by decide)⟩

/-! ### Claim C3 -/

/-- C3, counterexample to "never a NaN": `cleanNumber` applied to the
string `"%"` takes the percentage branch, where `parseFloat` fails and
the NaN propagates through the division by 100. -/
theorem cleanNumber_nan_counterexample :
    cleanNumber (.str "%") = JsNum.nan ∧ JsNum.nan ≠ JsNum.num 0 ∧
    parseFloatL (cleanedText "%") = JsNum.nan := by decide

/-- C3, amended: `cleanNumber` is a total function (it is a Lean
function, hence it never throws and is deterministic); non-string,
non-numeric cells normalize to 0; a string whose cleaned text does
*not* end in `%` and fails to parse normalizes to 0; but a string
whose cleaned text ends in `%` yields `parseFloat` of that text
divided by 100, which is NaN when the numeric prefix is missing (the
restriction to non-percent strings is what the counterexample
forces). -/
theorem cleanNumber_total_amended :
    (∀ c : CellValue, (∀ q, c ≠ .num q) → (∀ s, c ≠ .str s) → cleanNumber c = .num 0) ∧
    (∀ s : String, (cleanedText s).getLast? ≠ some '%' →
      parseFloatL (cleanedText s) = .nan → cleanNumber (.str s) = .num 0) ∧
    (∀ s : String, (cleanedText s).getLast? = some '%' →
      cleanNumber (.str s) = (parseFloatL (cleanedText s)).div100) := by
  refine ⟨?_, ?_, ?_⟩
  · intro c hq hs
    cases c with
    | num q => exact (hq q rfl).elim
    | str s => exact (hs s rfl).elim
    | null => rfl
    | undef => rfl
    | bool b => rfl
    | obj => rfl
  · intro s h1 h2
    simp only [cleanNumber]
    rw [if_neg h1]
    by_cases hd : cleanedText s = ['-'] ∨ cleanedText s = ['—'] ∨ cleanedText s = []
    · rw [if_pos hd]
    · rw [if_neg hd, h2]
  · intro s h
    simp only [cleanNumber]
    rw [if_pos h]

/-- C3, witness: the amended theorem applied at the unparseable
non-percent string `"abc"` and at the percent string `"12.5%"`. -/
theorem cleanNumber_total_amended_witness :
    cleanNumber (.str "abc") = .num 0 ∧
    cleanNumber (.str "12.5%") = (parseFloatL (cleanedText "12.5%")).div100 :=
  ⟨cleanNumber_total_amended.2.1 "abc" (by decide) (by decide),
   cleanNumber_total_amended.2.2 "12.5%" (by decide)⟩

/-! ### Claim C5 -/

/-- Membership in the finalized list is membership in the
filtered-and-filled record list (sorting only permutes). -/
theorem mem_finalize {m : YMap} {d : YearData} :
    d ∈ finalize m ↔ d ∈ ((m.map Prod.snd).filter survives).map fillDefaults := by
  unfold finalize
  by_cases h : ((m.map Prod.snd).filter survives).map fillDefaults = []
  · simp [h]
  · rw [if_neg h]
    exact List.mem_insertionSort yearLe

/-- C5: the finalizer's postcondition.  (1) Every output record is the
default-filled version of a surviving map record - in particular a
year none of whose three core metrics was extracted is removed, and
`fillDefaults` touches only revenue / netProfitParent / totalAssets /
equityParent, so all other metrics stay absent unless extracted.
(2) Every surviving map record appears (filled) in the output.
(3) The four core fields of every output record are present (0-filled
when absent).  (4) The output is sorted ascending by numeric year.
(5) If no record survives, the output is empty, and the empty input
yields the empty output. -/
theorem finalize_postcondition (files : List Workbook) :
    (∀ d ∈ extractFinancialData files,
      ∃ d0, d0 ∈ (buildMap files).map Prod.snd ∧ survives d0 = true ∧ d = fillDefaults d0) ∧
    (∀ d0 ∈ (buildMap files).map Prod.snd, survives d0 = true →
      fillDefaults d0 ∈ extractFinancialData files) ∧
    (∀ d ∈ extractFinancialData files,
      d.revenue.isSome ∧ d.netProfitParent.isSome ∧ d.totalAssets.isSome ∧
      d.equityParent.isSome) ∧
    List.Sorted yearLe (extractFinancialData files) ∧
    ((∀ d0 ∈ (buildMap files).map Prod.snd, survives d0 = false) →
      extractFinancialData files = []) ∧
    extractFinancialData [] = [] := by
  refine ⟨?_, ?_, ?_, ?_, ?_, rfl⟩
  · intro d hd
    rw [extractFinancialData, mem_finalize] at hd
    obtain ⟨d0, hd0, hfill⟩ := List.mem_map.mp hd
    obtain ⟨hmem, hsur⟩ := List.mem_filter.mp hd0
    exact ⟨d0, hmem, hsur, hfill.symm⟩
  · intro d0 hmem hsur
    rw [extractFinancialData, mem_finalize]
    exact List.mem_map.mpr ⟨d0, List.mem_filter.mpr ⟨hmem, hsur⟩, rfl⟩
  · intro d hd
    rw [extractFinancialData, mem_finalize] at hd
    obtain ⟨d0, _, hfill⟩ := List.mem_map.mp hd
    subst hfill
    exact ⟨rfl, rfl, rfl, rfl⟩
  · rw [extractFinancialData]
    unfold finalize
    by_cases h : (((buildMap files).map Prod.snd).filter survives).map fillDefaults = []
    · simp [h]
    · rw [if_neg h]
      exact List.sorted_insertionSort yearLe _
  · intro hall
    rw [extractFinancialData]
    unfold finalize
    have h : ((buildMap files).map Prod.snd).filter survives = [] :=
      List.filter_eq_nil_iff.mpr fun d0 hd0 => by simp [hall d0 hd0]
    rw [h]
    simp

/-- C5, witness: the postcondition applied to the concrete horizontal
scenario, instantiating the second conjunct at the surviving partial
record of year 2021. -/
theorem finalize_postcondition_witness :
    fillDefaults
        { emptyRec "2021" with revenue := some (.num 1000), totalAssets := some (.num 5000) } ∈
      extractFinancialData
        [[[[.str "项目", .str "2021", .str "2022"],
           [.str "营业收入", .str "1000", .str "1200"],
           [.str "资产总计", .str "5000", .str "5500"]]]] :=
  (finalize_postcondition
      [[[[.str "项目", .str "2021", .str "2022"],
         [.str "营业收入", .str "1000", .str "1200"],
         [.str "资产总计", .str "5000", .str "5500"]]]]).2.1
    { emptyRec "2021" with revenue := some (.num 1000), totalAssets := some (.num 5000) }
    (by decide) (by decide)

/-! ### Claim C7 -/

theorem abs_not_negative (v : JsNum) : v.abs.isNegative = false := by
  cases v with
  | num q => simp [JsNum.abs, JsNum.isNegative, abs_nonneg, not_lt.mpr]
  | nan => rfl
  | inf b => rfl

theorem capexOk_emptyRec (y : String) : capexOk (emptyRec y) := by
  intro v h
  simp [emptyRec] at h

theorem capex_setCapexAware (d : YearData) (mk : Metric) (v : JsNum) :
    capexOk d → capexOk (setCapexAware d mk v) := by
  intro hd w hw
  by_cases h : mk = Metric.capex
  · subst h
    rw [setCapexAware, if_pos rfl] at hw
    simp only [setMetric] at hw
    injection hw with h2
    subst h2
    exact abs_not_negative v
  · rw [setCapexAware, if_neg h] at hw
    cases mk <;> first
      | exact absurd rfl h
      | exact hd w (by simpa [setMetric] using hw)

theorem foldl_preserve {α β : Type} (P : α → Prop) (f : α → β → α) (l : List β) (init : α)
    (step : ∀ acc x, x ∈ l → P acc → P (f acc x)) (h0 : P init) : P (l.foldl f init) := by
  induction l generalizing init with
  | nil => exact h0
  | cons x t ih =>
    exact ih _ (fun acc y hy => step acc y (List.mem_cons_of_mem x hy))
      (step init x (List.mem_cons_self x t) h0)

theorem mapOk_ymEnsure {m : YMap} (y : String) (h : mapOk m) : mapOk (ymEnsure m y) := by
  unfold ymEnsure
  by_cases hy : (ymFind m y).isSome
  · rwa [if_pos hy]
  · rw [if_neg hy]
    intro e he
    rcases List.mem_append.mp he with h1 | h1
    · exact h e h1
    · rw [List.mem_singleton.mp h1]
      exact capexOk_emptyRec y

theorem mapOk_ymSet {m : YMap} {f : YearData → YearData} (y : String)
    (hf : ∀ d, capexOk d → capexOk (f d)) (h : mapOk m) : mapOk (ymSet m y f) := by
  intro e he
  obtain ⟨e0, he0, heq⟩ := List.mem_map.mp he
  subst heq
  by_cases hk : e0.1 = y
  · rw [if_pos hk]
    exact hf e0.2 (h e0 he0)
  · rw [if_neg hk]
    exact h e0 he0

theorem mapOk_processHRow (ycm : List (ℕ × String)) (m : YMap) (row : Row) (h : mapOk m) :
    mapOk (processHRow ycm m row) := by
  unfold processHRow
  cases hk : identifyMetric (strTrim (cellToString (labelCell row))) with
  | none => exact h
  | some k =>
    cases k with
    | businessComposition => exact h
    | metric mk =>
      exact foldl_preserve mapOk _ ycm m
        (fun acc p _ hacc =>
          mapOk_ymSet p.2 (fun d => capex_setCapexAware d mk _) (mapOk_ymEnsure p.2 hacc)) h

theorem mapOk_processVRow (mcm : List (ℕ × MetricKey)) (m : YMap) (row : Row) (h : mapOk m) :
    mapOk (processVRow mcm m row) := by
  unfold processVRow
  cases leadingFourDigits (trimWs (cellToString (row.getD 0 .undef)).toList) with
  | none => exact h
  | some ds =>
    refine foldl_preserve mapOk _ mcm _ ?_ (mapOk_ymEnsure _ h)
    intro acc p _ hacc
    unfold vStep
    cases p.2 with
    | businessComposition =>
      refine mapOk_ymSet _ ?_ hacc
      intro d hd v hv
      exact hd v hv
    | metric mk => exact mapOk_ymSet _ (fun d => capex_setCapexAware d mk _) hacc

theorem mapOk_processSheet (m : YMap) (rows : Sheet) (h : mapOk m) :
    mapOk (processSheet m rows) := by
  unfold processSheet
  by_cases he : rows = []
  · rwa [if_pos he]
  · rw [if_neg he]
    cases detectStrategy rows with
    | none => exact h
    | some p =>
      obtain ⟨strat, hi⟩ := p
      cases strat with
      | horizontal =>
        exact foldl_preserve mapOk (processHRow (yearColMapOf (rows.getD hi [])))
          (rows.drop (hi + 1)) m (fun acc r _ hacc => mapOk_processHRow _ acc r hacc) h
      | vertical =>
        exact foldl_preserve mapOk (processVRow (metricColMapOf (rows.getD hi [])))
          (rows.drop (hi + 1)) m (fun acc r _ hacc => mapOk_processVRow _ acc r hacc) h

theorem mapOk_buildMap (files : List Workbook) : mapOk (buildMap files) := by
  unfold buildMap
  refine foldl_preserve mapOk _ files [] ?_ ?_
  · intro acc wb _ hacc
    exact foldl_preserve mapOk _ wb acc (fun a s _ ha => mapOk_processSheet a s ha) hacc
  · intro e he
    simp at he

/-- C7: in every record of the final extraction result, a present
capital-expenditure value is never negative, whatever the input
workbooks contain (every capex write goes through `Math.abs`, both in
the horizontal and in the vertical extractor, and finalization leaves
the capex field untouched). -/
theorem capex_nonneg_invariant (files : List Workbook) (d : YearData)
    (hd : d ∈ extractFinancialData files) (v : JsNum) (hv : d.capex = some v) :
    v.isNegative = false := by
  rw [extractFinancialData, mem_finalize] at hd
  obtain ⟨d0, hd0, hfill⟩ := List.mem_map.mp hd
  obtain ⟨hmem, _⟩ := List.mem_filter.mp hd0
  obtain ⟨e, he, heq⟩ := List.mem_map.mp hmem
  have hok : capexOk d0 := heq ▸ mapOk_buildMap files e he
  subst hfill
  exact hok v hv

/-- C7, witness: the invariant applied to a concrete sheet whose capex
row carries the negative source value `(500)`; the stored value is its
absolute value 500, which is not negative. -/
theorem capex_nonneg_invariant_witness :
    (JsNum.num 500).isNegative = false :=
  capex_nonneg_invariant
    [[[[.str "科目", .str "2020", .str "2021"],
       [.str "营业收入", .str "10", .str "20"],
       [.str "购建固定资产", .str "(500)", .str "-700"]]]]
    { emptyRec "2020" with
        revenue := some (.num 10)
        netProfitParent := some (.num 0)
        totalAssets := some (.num 0)
        equityParent := some (.num 0)
        capex := some (.num 500) }
    (by decide) (.num 500) (by decide)

/-! ### Claim C10 -/

theorem ymFind_ymSet (m : YMap) (y : String) (f : YearData → YearData) :
    ymFind (ymSet m y f) y = (ymFind m y).map f := by
  induction m with
  | nil => rfl
  | cons e t ih =>
    simp only [ymSet, List.map_cons]
    by_cases h : e.1 = y
    · rw [if_pos h]
      simp [ymFind, h]
    · rw [if_neg h]
      simp only [ymFind, if_neg h]
      exact ih

theorem ymFind_append_right (m : YMap) (y : String) (d : YearData)
    (h : ymFind m y = none) : ymFind (m ++ [(y, d)]) y = some d := by
  induction m with
  | nil => simp [ymFind]
  | cons e t ih =>
    simp only [List.cons_append, ymFind] at h ⊢
    by_cases he : e.1 = y
    · rw [if_pos he] at h
      exact absurd h (by simp)
    · rw [if_neg he] at h ⊢
      exact ih h

theorem ymFind_ymEnsure_isSome (m : YMap) (y : String) :
    (ymFind (ymEnsure m y) y).isSome = true := by
  unfold ymEnsure
  by_cases h : (ymFind m y).isSome
  · rwa [if_pos h]
  · rw [if_neg h, ymFind_append_right m y _ (Option.not_isSome_iff_eq_none.mp h)]
    rfl

theorem bc_setCapexAware (d : YearData) (mk : Metric) (v : JsNum) :
    (setCapexAware d mk v).businessComposition = d.businessComposition := by
  cases mk <;> simp [setCapexAware, setMetric]

/-- After folding the vertical loop body over the column map, the
composition list stored under `y` is the parse of the last
composition-mapped column's cell, independent of the incoming map's
composition list; if no column carries the marker, it is whatever the
initial map stored. -/
theorem vfold_bc (row : Row) (y : String) (mcm : List (ℕ × MetricKey)) :
    ∀ acc : YMap, (ymFind acc y).isSome = true →
      bcOf (mcm.foldl (vStep row y) acc) y =
        match lastBC mcm with
        | some ci => some (parseBusinessComposition (cellToString (row.getD ci .undef)))
        | none => bcOf acc y := by
  induction mcm with
  | nil => intro acc _; rfl
  | cons p t ih =>
    intro acc hacc
    rw [List.foldl_cons]
    cases hp : p.2 with
    | businessComposition =>
      rw [vStep, hp]
      have hacc' :
          (ymFind (ymSet acc y fun d =>
            { d with businessComposition :=
                parseBusinessComposition (cellToString (row.getD p.1 .undef)) }) y).isSome
            = true := by
        rw [ymFind_ymSet]
        simpa using hacc
      rw [ih _ hacc']
      cases hlt : lastBC t with
      | some ci => simp only [lastBC, hlt]
      | none =>
        simp only [lastBC, hlt, if_pos hp]
        obtain ⟨d0, hd0⟩ := Option.isSome_iff_exists.mp hacc
        unfold bcOf
        rw [ymFind_ymSet, hd0]
        rfl
    | metric mk =>
      rw [vStep, hp]
      have hacc' :
          (ymFind (ymSet acc y fun d =>
            setCapexAware d mk (cleanNumber (row.getD p.1 .undef))) y).isSome = true := by
        rw [ymFind_ymSet]
        simpa using hacc
      rw [ih _ hacc']
      cases hlt : lastBC t with
      | some ci => simp only [lastBC, hlt]
      | none =>
        have hnbc : ¬p.2 = MetricKey.businessComposition := by simp [hp]
        simp only [lastBC, hlt, if_neg hnbc]
        unfold bcOf
        rw [ymFind_ymSet]
        cases hopt : ymFind acc y with
        | none => rfl
        | some d0 => simp [bc_setCapexAware]

theorem toList_mk (l : List Char) : (String.mk l).toList = l := rfl

theorem splitOnPred_ne_nil (p : Char → Bool) (l : List Char) : splitOnPred p l ≠ [] := by
  cases l with
  | nil => simp [splitOnPred]
  | cons c t =>
    unfold splitOnPred
    by_cases h : p c = true
    · simp [h]
    · rw [if_neg h]
      cases hsp : splitOnPred p t <;> simp

theorem mem_of_mem_splitOnPred (p : Char → Bool) :
    ∀ (l frag : List Char), frag ∈ splitOnPred p l → ∀ c ∈ frag, c ∈ l := by
  intro l
  induction l with
  | nil =>
    intro frag hfrag c hc
    simp [splitOnPred] at hfrag
    subst hfrag
    simp at hc
  | cons a t ih =>
    intro frag hfrag c hc
    unfold splitOnPred at hfrag
    by_cases h : p a = true
    · rw [if_pos h] at hfrag
      rcases List.mem_cons.mp hfrag with h1 | h1
      · subst h1; simp at hc
      · exact List.mem_cons_of_mem a (ih frag h1 c hc)
    · rw [if_neg h] at hfrag
      cases hsp : splitOnPred p t with
      | nil => exact absurd hsp (splitOnPred_ne_nil p t)
      | cons h0 r =>
        rw [hsp] at hfrag
        rcases List.mem_cons.mp hfrag with h1 | h1
        · subst h1
          rcases List.mem_cons.mp hc with h2 | h2
          · subst h2; exact List.mem_cons_self c t
          · exact List.mem_cons_of_mem a (ih h0 (hsp ▸ List.mem_cons_self h0 r) c h2)
        · exact List.mem_cons_of_mem a (ih frag (hsp ▸ List.mem_cons_of_mem h0 h1) c hc)

theorem splitOnPred_all_false (p : Char → Bool) :
    ∀ l : List Char, (∀ c ∈ l, p c = false) → splitOnPred p l = [l] := by
  intro l
  induction l with
  | nil => intro _; rfl
  | cons a t ih =>
    intro h
    unfold splitOnPred
    rw [if_neg (by simp [h a (List.mem_cons_self a t)])]
    rw [ih fun c hc => h c (List.mem_cons_of_mem a hc)]

theorem digitChar_not_colon (n : ℕ) : isColonChar (digitChar n) = false := by
  unfold digitChar
  by_cases h : n < 10
  · interval_cases n <;> decide
  · rw [List.getD_eq_getElem?_getD, List.getElem?_eq_none (by simp [digitCharList]; omega)]
    decide

theorem natChars_mem (f : ℕ) : ∀ (n : ℕ) (c : Char), c ∈ natChars f n → ∃ k, c = digitChar k := by
  induction f with
  | zero => intro n c hc; simp [natChars] at hc
  | succ f ih =>
    intro n c hc
    unfold natChars at hc
    by_cases h : n < 10
    · rw [if_pos h] at hc
      simp at hc
      exact ⟨n, hc⟩
    · rw [if_neg h] at hc
      rcases List.mem_append.mp hc with h1 | h1
      · exact ih _ c h1
      · simp at h1
        exact ⟨n % 10, h1⟩

theorem natStr_not_colon (n : ℕ) : ∀ c ∈ natStr n, isColonChar c = false := by
  intro c hc
  obtain ⟨k, rfl⟩ := natChars_mem _ _ _ hc
  exact digitChar_not_colon k

theorem numToString_not_colon (q : ℚ) :
    ∀ c ∈ (numToString q).toList, isColonChar c = false := by
  unfold numToString
  have hsgn : ∀ c ∈ (if q < 0 then ['-'] else ([] : List Char)), isColonChar c = false := by
    intro c hc
    by_cases h : q < 0
    · rw [if_pos h] at hc
      simp at hc
      subst hc
      decide
    · rw [if_neg h] at hc
      simp at hc
  cases hf : (List.range 65).find? fun k => q.den ∣ 10 ^ k with
  | none =>
    intro c hc
    rw [toList_mk] at hc
    rcases List.mem_append.mp hc with h1 | h1
    · exact hsgn c h1
    · exact natStr_not_colon _ c h1
  | some k =>
    dsimp only
    by_cases hk : k = 0
    · subst hk
      rw [if_pos rfl]
      intro c hc
      rw [toList_mk] at hc
      rcases List.mem_append.mp hc with h1 | h1
      · exact hsgn c h1
      · exact natStr_not_colon _ c h1
    · rw [if_neg hk]
      intro c hc
      rw [toList_mk] at hc
      rcases List.mem_append.mp hc with h1 | h1
      · rcases List.mem_append.mp h1 with h2 | h2
        · exact hsgn c h2
        · exact natStr_not_colon _ c h2
      · rcases List.mem_cons.mp h1 with h2 | h2
        · subst h2; decide
        · rcases List.mem_append.mp h2 with h3 | h3
          · rw [List.eq_of_mem_replicate h3]
            decide
          · exact natStr_not_colon _ c h3

theorem parseBC_colonFree (s : String) (h : ∀ c ∈ s.toList, isColonChar c = false) :
    parseBusinessComposition s = [] := by
  obtain ⟨l⟩ := s
  cases l with
  | nil => rfl
  | cons a t =>
    unfold parseBusinessComposition
    rw [if_neg (by intro heq; exact absurd (congrArg String.data heq) (by simp))]
    rw [List.filterMap_eq_nil_iff]
    intro frag hfrag
    have hcf : ∀ c ∈ frag, isColonChar c = false := fun c hc =>
      h c (mem_of_mem_splitOnPred isSemiChar _ frag hfrag c hc)
    rw [splitOnPred_all_false isColonChar frag hcf]

/-- C10: in the vertical extractor, for every data row whose column 0
starts with four digits, if the column map carries the
business-composition marker then after processing the row the year's
stored composition list equals the parse of the cell in the *last*
marker-carrying column - the right-hand side does not mention the
incoming map `m`, so the assignment is an unconditional replacement
that erases whatever composition earlier rows or sheets had collected
for that year.  In particular (second conjunct) an empty-string or
non-string cell parses to the empty list (the string image of a
non-string cell - a number, `"null"`, `"undefined"`, `"true"`,
`"false"`, `"[object Object]"` - never contains a colon, so no
fragment splits into two parts). -/
theorem vertical_composition_replacement :
    (∀ (mcm : List (ℕ × MetricKey)) (m : YMap) (row : Row) (ds : List Char) (ci : ℕ),
      leadingFourDigits (trimWs (cellToString (row.getD 0 .undef)).toList) = some ds →
      lastBC mcm = some ci →
      bcOf (processVRow mcm m row) (String.mk ds) =
        some (parseBusinessComposition (cellToString (row.getD ci .undef)))) ∧
    (∀ c : CellValue, (∀ s, c = .str s → s = "") →
      parseBusinessComposition (cellToString c) = []) := by
  constructor
  · intro mcm m row ds ci hy hbc
    unfold processVRow
    rw [hy]
    have h1 := vfold_bc row (String.mk ds) mcm (ymEnsure m (String.mk ds))
      (ymFind_ymEnsure_isSome m (String.mk ds))
    rw [hbc] at h1
    exact h1
  · intro c h
    cases c with
    | num q => exact parseBC_colonFree _ (numToString_not_colon q)
    | str s => rw [h s rfl]; rfl
    | null => decide
    | undef => decide
    | bool b => cases b <;> decide
    | obj => decide

/-- C10, witness: a vertical row for year 2020 whose composition
column holds `"A:100"`, processed against a map that already stored a
non-empty composition for 2020; the stored list is replaced by the
parse of the new cell, and a numeric cell parses to the empty list. -/
theorem vertical_composition_replacement_witness :
    bcOf
        (processVRow [(1, MetricKey.businessComposition)]
          [("2020", { emptyRec "2020" with businessComposition := [⟨"Old", .num 1⟩] })]
          [.str "2020", .str "A:100"])
        (String.mk ['2', '0', '2', '0']) =
      some (parseBusinessComposition
        (cellToString (([.str "2020", .str "A:100"] : Row).getD 1 .undef))) ∧
    parseBusinessComposition (cellToString (.num 800)) = [] :=
  ⟨vertical_composition_replacement.1 [(1, MetricKey.businessComposition)]
      [("2020", { emptyRec "2020" with businessComposition := [⟨"Old", .num 1⟩] })]
      [.str "2020", .str "A:100"] ['2', '0', '2', '0'] 1 (by decide) (by decide),
   vertical_composition_replacement.2 (.num 800) (by intro s hs; cases hs)⟩

/-! ### Claim C1 -/

/-- C1, counterexample to the VERTICAL half of the claim: in the row
`["年份","营业收入","净利润","总资产"]` only two cells identify as
canonical metrics (`"净利润"` matches no rule: every netProfitParent
positive keyword is a longer phrase that contains it, not the other
way round), so the threshold of three is missed and no strategy is
detected for a sheet starting with that row. -/
theorem detect_vertical_counterexample :
    (([CellValue.str "年份", .str "营业收入", .str "净利润", .str "总资产"].filter
      fun c => (identifyMetric (strTrim (cellToString c))).isSome).length = 2) ∧
    identifyMetric "净利润" = none ∧
    detectStrategy [[.str "年份", .str "营业收入", .str "净利润", .str "总资产"]] = none := by
  decide

/-- C1, amended: a sheet starting with `["科目","2020","2021","2022"]`
is detected HORIZONTAL with that row (index 0) as header; the row
`["年份","营业收入","净利润","总资产"]` of the claim yields *no*
strategy (only 2 of its cells identify as canonical metrics); a row
with three identifying cells, e.g. `["年份","营业收入","归母净利润","总资产"]`,
is detected VERTICAL with that row as header. -/
theorem detect_orientation_amended :
    detectStrategy [[.str "科目", .str "2020", .str "2021", .str "2022"]] =
      some (.horizontal, 0) ∧
    detectStrategy [[.str "年份", .str "营业收入", .str "净利润", .str "总资产"]] = none ∧
    detectStrategy [[.str "年份", .str "营业收入", .str "归母净利润", .str "总资产"]] =
      some (.vertical, 0) ∧
    3 ≤ (([CellValue.str "年份", .str "营业收入", .str "归母净利润", .str "总资产"].filter
      fun c => (identifyMetric (strTrim (cellToString c))).isSome).length) := by
  decide

/-! ### Claim C2 -/

/-- C2, counterexample: the spec's vertical end-to-end scenario B
extracts nothing - of its header row only `"营业收入"` and
`"归属于母公司所有者的净利润"` identify as metrics (2 < 3), no row has
two year-prefixed cells, so no row triggers either detection rule, the
sheet is skipped, and the result is empty rather than two
YearRecords. -/
theorem extract_scenario_b_counterexample :
    extractFinancialData
        [[[[.str "年份", .str "营业收入", .str "归属于母公司所有者的净利润"],
           [.str "2020", .str "800", .str "80"],
           [.str "2021", .str "900", .str "95"]]]] = [] ∧
    detectStrategy
        [[.str "年份", .str "营业收入", .str "归属于母公司所有者的净利润"],
         [.str "2020", .str "800", .str "80"],
         [.str "2021", .str "900", .str "95"]] = none := by
  decide

/-- C2, amended: with a third metric column added (总资产, values
2000/2200) the vertical detection threshold is met and the extraction
yields YearRecords for 2020 and 2021 with revenue 800/900, net profit
attributable to parent 80/95, the extracted totalAssets 2000/2200, and
equityParent defaulted to 0; the original three-column input yields
the empty sequence. -/
theorem extract_scenario_b_amended :
    extractFinancialData
        [[[[.str "年份", .str "营业收入", .str "归属于母公司所有者的净利润", .str "总资产"],
           [.str "2020", .str "800", .str "80", .str "2000"],
           [.str "2021", .str "900", .str "95", .str "2200"]]]] =
      [{ emptyRec "2020" with
          revenue := some (.num 800)
          netProfitParent := some (.num 80)
          totalAssets := some (.num 2000)
          equityParent := some (.num 0) },
       { emptyRec "2021" with
          revenue := some (.num 900)
          netProfitParent := some (.num 95)
          totalAssets := some (.num 2200)
          equityParent := some (.num 0) }] ∧
    extractFinancialData
        [[[[.str "年份", .str "营业收入", .str "归属于母公司所有者的净利润"],
           [.str "2020", .str "800", .str "80"],
           [.str "2021", .str "900", .str "95"]]]] = [] := by
  decide

/-! ### Claim C6 -/

/-- C6: the horizontal end-to-end scenario A - rows
`[["项目","2021","2022"],["营业收入","1000","1200"],["资产总计","5000","5500"]]`
yield exactly the two YearRecords
`{year:"2021", revenue:1000, totalAssets:5000, netProfitParent:0, equityParent:0}`
and the 2022 analog, in ascending year order (all other metrics
absent, composition empty). -/
theorem extract_scenario_a :
    extractFinancialData
        [[[[.str "项目", .str "2021", .str "2022"],
           [.str "营业收入", .str "1000", .str "1200"],
           [.str "资产总计", .str "5000", .str "5500"]]]] =
      [{ emptyRec "2021" with
          revenue := some (.num 1000)
          netProfitParent := some (.num 0)
          totalAssets := some (.num 5000)
          equityParent := some (.num 0) },
       { emptyRec "2022" with
          revenue := some (.num 1200)
          netProfitParent := some (.num 0)
          totalAssets := some (.num 5500)
          equityParent := some (.num 0) }] := by
  decide

/-! ### Claim C8 -/

/-- C8: two invocations of the extraction on the same input produce
identical outputs.  In the source, `yearDataMap` is a local constant
of `extractFinancialData` and `METRIC_RULES` is never mutated; the
embedding mirrors this by threading the map explicitly from `[]` on
every call, so `runTwice` computes the same pure function twice and
the two components are definitionally equal. -/
theorem extract_two_runs_equal (files : List Workbook) :
    (runTwice files).1 = (runTwice files).2 := rfl

/-! ### Claim C9 -/

/-- C9: the three value-normalizer vectors - `"¥1,234.50"` (currency
symbol and thousands separator stripped) yields 1234.5, the
parenthesized `"(500)"` yields -500, and the percentage `"12.5%"`
yields 0.125. -/
theorem cleanNumber_vectors :
    cleanNumber (.str "¥1,234.50") = .num (1234.5 : ℚ) ∧
    cleanNumber (.str "(500)") = .num (-500 : ℚ) ∧
    cleanNumber (.str "12.5%") = .num (0.125 : ℚ) := by
  have h1 : (1234.5 : ℚ) = mkRat 2469 2 := by
    rw [Rat.mkRat_eq_div]
    norm_num
  have h2 : (0.125 : ℚ) = mkRat 1 8 := by
    rw [Rat.mkRat_eq_div]
    norm_num
  rw [h1, h2]
  decide

end Dupont

